import Mathlib

/-!
# AutomaticGradingSystem: competition controller and submissions cache

A shallow embedding of

* `src/server/controllers/competitionController.js` (the four request handlers),
* `src/server/server.js` (the catch-all route), and
* `src/client/src/features/submissions/submissionsApiSlice.js` (status validation, response
  normalisation, cache tags and selectors),

together with the properties of these functions that the specification states.

The document store is a list of competition records in natural (insertion) order.  A handler is a
function from the store before the request to the response it sends and the store afterwards.
Whether a store operation throws is decided by the environment (`StoreEnv`), not by the handler.
-/

namespace AutomaticGradingSystem

/-! ## Server side: data model -/

/-- A property value read from a JSON object; `none` is JavaScript `undefined`
(the property is missing). -/
abbrev Field := Option String

/-- The object literal `{ name, date, time, duration }` handed to `Competition.create`. -/
structure CompetitionFields where
  name : Field
  date : Field
  time : Field
  duration : Field
deriving DecidableEq, Repr

/-- A stored competition document: the identifier the store assigned and the four fields. -/
structure Competition where
  _id : String
  name : Field
  date : Field
  time : Field
  duration : Field
deriving DecidableEq, Repr

/-- The part of `req.body` the handlers destructure: `const { name, date, time, duration } = req.body`.
Any other property of the body is never read. -/
structure Body where
  name : Field
  date : Field
  time : Field
  duration : Field
deriving DecidableEq, Repr

/-- What the environment decides about the store: which operations throw (connectivity, cast and
validation errors all surface as a rejected promise), and the identifier the driver generates for
the next inserted document. -/
structure StoreEnv where
  /-- Outcome of `Competition.find().lean()`: true when it rejects. -/
  findRejects : Bool
  /-- Outcome of `Competition.findOne()`: true when it rejects. -/
  findOneRejects : Bool
  /-- Outcome of `doc.save()` for the given document: true when it rejects. -/
  saveRejects : Competition → Bool
  /-- Outcome of `Competition.create(doc)` for the given fields: true when it rejects. -/
  createRejects : CompetitionFields → Bool
  /-- Outcome of `Competition.findByIdAndDelete(id)`: true when it rejects for this id. -/
  findByIdAndDeleteRejects : String → Bool
  /-- Identifier given to the next created document. -/
  generatedId : String

/-- The exception values the handlers can observe. -/
inductive JsError where
  /-- A rejected store operation. -/
  | storeError
  /-- A call of something that is not a function, as in `x.save()` when `x.save` is undefined. -/
  | typeError
deriving DecidableEq, Repr

/-- The JSON body of a response. -/
inductive Payload where
  /-- The envelope with a `message` property. -/
  | message (text : String)
  /-- The envelope with an `error` property. -/
  | error (text : String)
  /-- One competition document. -/
  | competition (c : Competition)
  /-- An array of competition documents. -/
  | competitions (cs : List Competition)
deriving DecidableEq, Repr

/-- An HTTP response: `res.status(n).json(body)`; `res.json(body)` alone keeps the default 200. -/
structure Response where
  status : Nat
  body : Payload
deriving DecidableEq, Repr

/-! ## Server side: the store operations the controller calls -/

/-- The call `Competition.find().lean()`: every document, in store order, or a rejection. -/
def Competition.find (env : StoreEnv) (docs : List Competition) :
    Except JsError (List Competition) :=
  if env.findRejects then .error .storeError else .ok docs

/-- The call `Competition.findOne()`: the first document of the unfiltered lookup, `none` (null)
when there is no document, or a rejection. -/
def Competition.findOne (env : StoreEnv) (docs : List Competition) :
    Except JsError (Option Competition) :=
  if env.findOneRejects then .error .storeError else .ok docs.head?

/-- Replace the first document whose identifier is that of `doc`. -/
def replaceById (doc : Competition) : List Competition → List Competition
  | [] => []
  | d :: ds => if d._id = doc._id then doc :: ds else d :: replaceById doc ds

/-- The call `doc.save()` on a document that was read from the store: writes the document back
under its identifier and resolves to it, or rejects and writes nothing. -/
def Competition.save (env : StoreEnv) (doc : Competition) (docs : List Competition) :
    Except JsError (Competition × List Competition) :=
  if env.saveRejects doc then .error .storeError
  else if docs.any (fun d => d._id = doc._id) then .ok (doc, replaceById doc docs)
  else .error .storeError

/-- The call `Competition.create(fields)`: inserts a new document with a generated identifier at
the end of the store and resolves to it, or rejects and inserts nothing.  The second component is
the store once the insert has completed. -/
def Competition.create (env : StoreEnv) (fields : CompetitionFields) (docs : List Competition) :
    Except JsError Competition × List Competition :=
  if env.createRejects fields then (.error .storeError, docs)
  else
    let doc : Competition :=
      { _id := env.generatedId, name := fields.name, date := fields.date,
        time := fields.time, duration := fields.duration }
    (.ok doc, docs ++ [doc])

/-- Remove the first document with the given identifier. -/
def removeById (id : String) : List Competition → List Competition
  | [] => []
  | d :: ds => if d._id = id then ds else d :: removeById id ds

/-- The call `Competition.findByIdAndDelete(id)`: removes the first document with that identifier
and resolves to it, resolves to `none` (null) when no document has it, or rejects. -/
def Competition.findByIdAndDelete (env : StoreEnv) (id : String) (docs : List Competition) :
    Except JsError (Option Competition × List Competition) :=
  if env.findByIdAndDeleteRejects id then .error .storeError
  else
    match docs.find? (fun d => d._id = id) with
    | none => .ok (none, docs)
    | some d => .ok (some d, removeById id docs)

/-! ## Server side: the handlers of `competitionController.js` -/

/-- The JavaScript values `createCompetition` handles. -/
inductive Value where
  /-- A promise for a document, with what it settles to. -/
  | promise (settled : Except JsError Competition)
  /-- The function `Promise.prototype.then`. -/
  | thenMethod
  /-- A document of the Competition model. -/
  | document (c : Competition)
  /-- The value `undefined`. -/
  | undefined
deriving Repr

/-- The property read `v.then`: on a promise it is the function `Promise.prototype.then`; a
document and that function have no such property. -/
def Value.thenProperty : Value → Value
  | .promise _ => .thenMethod
  | _ => .undefined

/-- The expression `await v`: a promise gives what it settles to (a rejection is thrown); any
value that is not a thenable, a function included, gives that value itself. -/
def await (v : Value) : Except JsError Value :=
  match v with
  | .promise (.ok c) => .ok (.document c)
  | .promise (.error e) => .error e
  | v => .ok v

/-- The expression `await v.save()`: a document is saved; any other value has no `save` method,
so the call throws a `TypeError`. -/
def Value.save (env : StoreEnv) (v : Value) (docs : List Competition) :
    Except JsError (Competition × List Competition) :=
  match v with
  | .document c => Competition.save env c docs
  | _ => .error .typeError

/-- The handler `createCompetition` (lines 27-50).  The response is `none` when the handler
sends none: an exception outside the `try` goes to `asyncHandler`, which hands it on.

Line 35-40 is `await Competition.create(...).then`: `create` is called, which starts the insert,
and what is awaited is the `then` property of the promise it returned.  That promise is not
awaited, so the handler does not see what it settles to; the store is the one the insert leaves. -/
def createCompetition (env : StoreEnv) (body : Body) (docs : List Competition) :
    Option Response × List Competition :=
  let fields : CompetitionFields :=
    { name := body.name, date := body.date, time := body.time, duration := body.duration }
  let created := Competition.create env fields docs
  match await (Value.promise created.1).thenProperty with
  | .error _ => (none, created.2)
  | .ok newCompetition =>
    match newCompetition.save env created.2 with
    | .ok (savedCompetition, docs') => (some ⟨201, .competition savedCompetition⟩, docs')
    | .error _ => (some ⟨500, .error "Error creating competition"⟩, created.2)

/-- The handler `getAllCompetitions` (lines 53-61). -/
def getAllCompetitions (env : StoreEnv) (docs : List Competition) :
    Response × List Competition :=
  match Competition.find env docs with
  | .ok competitions => (⟨200, .competitions competitions⟩, docs)
  | .error _ => (⟨500, .error "Error fetching competitions"⟩, docs)

/-- The handler `updateCompetition` (lines 65-90). -/
def updateCompetition (env : StoreEnv) (body : Body) (docs : List Competition) :
    Response × List Competition :=
  match Competition.findOne env docs with
  | .error _ => (⟨500, .error "Error updating competition"⟩, docs)
  | .ok none => (⟨404, .message "Competition not found"⟩, docs)
  | .ok (some firstCompetition) =>
    let firstCompetition : Competition :=
      { firstCompetition with
        name := body.name, date := body.date, time := body.time, duration := body.duration }
    match Competition.save env firstCompetition docs with
    | .ok (updatedCompetition, docs') => (⟨200, .competition updatedCompetition⟩, docs')
    | .error _ => (⟨500, .error "Error updating competition"⟩, docs)

/-- The handler `deleteCompetition` (lines 94-112); `competitionId` is `req.params.competitionId`. -/
def deleteCompetition (env : StoreEnv) (competitionId : String) (docs : List Competition) :
    Response × List Competition :=
  match Competition.findByIdAndDelete env competitionId docs with
  | .error _ => (⟨500, .error "Error deleting competition"⟩, docs)
  | .ok (none, docs') => (⟨404, .message "Competition not found"⟩, docs')
  | .ok (some _, docs') => (⟨200, .message "Competition deleted successfully"⟩, docs')

/-- A store environment in which no operation rejects. -/
def healthyEnv : StoreEnv :=
  { findRejects := false, findOneRejects := false, saveRejects := fun _ => false,
    createRejects := fun _ => false, findByIdAndDeleteRejects := fun _ => false,
    generatedId := "65658eb6f38c223421f763be" }

/-- A store environment in which every operation rejects (the database is unreachable). -/
def unreachableEnv : StoreEnv :=
  { findRejects := true, findOneRejects := true, saveRejects := fun _ => true,
    createRejects := fun _ => true, findByIdAndDeleteRejects := fun _ => true,
    generatedId := "65658eb6f38c223421f763be" }

/-! ## Client side: the normalised submissions collection -/

/-- An entity identifier as the cache holds it; `none` is JavaScript `undefined`. -/
abbrev EntityId := Option String

/-- A submission record of a list response: the store identifier `_id`, the cache identifier `id`
(absent until it is set), and the remaining properties. -/
structure Submission where
  _id : String
  id : EntityId
  fields : List (String × String)
deriving DecidableEq, Repr

/-- The state of an entity adapter: the ordered identifiers and the identifier-to-entity mapping
(an object, kept here as its key/value pairs in insertion order). -/
structure EntityState where
  ids : List EntityId
  entities : List (EntityId × Submission)
deriving DecidableEq, Repr

/-- The value `submissionsAdapter.getInitialState()` (line 6): no ids, no entities. -/
def initialState : EntityState := { ids := [], entities := [] }

/-- The adapter is created with `createEntityAdapter({})` (line 4), so its `selectId` is the
default `entity => entity.id`. -/
def selectId (entity : Submission) : EntityId := entity.id

/-- The property read `state.entities[key]`. -/
def EntityState.entityAt (state : EntityState) (key : EntityId) : Option Submission :=
  (state.entities.find? (fun p => p.1 = key)).map Prod.snd

/-- Redux Toolkit, unsorted adapter, `addOneMutably`: an entity whose key is already in
`state.entities` is skipped; otherwise its key is pushed onto `ids` and it is stored. -/
def addOneMutably (entity : Submission) (state : EntityState) : EntityState :=
  let key := selectId entity
  if state.entities.any (fun p => p.1 = key) then state
  else { ids := state.ids ++ [key], entities := state.entities ++ [(key, entity)] }

/-- Redux Toolkit, unsorted adapter, `addManyMutably`: `addOneMutably` for each entity in turn. -/
def addManyMutably (newEntities : List Submission) (state : EntityState) : EntityState :=
  newEntities.foldl (fun st entity => addOneMutably entity st) state

/-- Redux Toolkit, unsorted adapter, `setAll(state, entities)`: clears `ids` and `entities` of
the given state and adds the entities. -/
def setAll (state : EntityState) (newEntities : List Submission) : EntityState :=
  addManyMutably newEntities { state with ids := [], entities := [] }

/-- What `getSubmissions.transformResponse` returns: the array literal `[]` (line 15) or an
adapter state (line 21). -/
inductive ListResult where
  /-- The empty array `[]`: an array has neither an `ids` nor an `entities` property. -/
  | emptyArray
  /-- An adapter state. -/
  | normalized (state : EntityState)
deriving DecidableEq, Repr

/-- The callback of `responseData.map` (lines 17-20): `submission.id = submission._id`. -/
def setId (submission : Submission) : Submission :=
  { submission with id := some submission._id }

/-- The function `getSubmissions.transformResponse` (lines 13-22), on the property values of the
records.  `responseData` is `none` when it is absent (null or undefined) and otherwise the array
of records.  The second component holds the property values of the records after the call: the
callback assigns to the records themselves, so the caller's array holds them with `id` set.
That the records are objects, which the adapter freezes when it stores them, is the matter of
`getSubmissions.transformResponseInPlace`. -/
def getSubmissions.transformResponse (responseData : Option (List Submission)) :
    ListResult × Option (List Submission) :=
  match responseData with
  | none => (.emptyArray, none)
  | some records =>
    let loadedSubmissions := records.map setId
    (.normalized (setAll initialState loadedSubmissions), some loadedSubmissions)

/-! ## Client side: cache tags -/

/-- A cache tag `{ type, id }`. -/
structure Tag where
  type : String
  id : EntityId
deriving DecidableEq, Repr

/-- The function `getSubmissions.providesTags` (lines 23-30).  `result` is `none` when the query
has no result (undefined); `result?.ids` is truthy exactly for an adapter state. -/
def getSubmissions.providesTags (result : Option ListResult) : List Tag :=
  match result with
  | some (.normalized state) =>
    { type := "Submission", id := some "LIST" } ::
      state.ids.map (fun id => { type := "Submission", id := id })
  | _ => [{ type := "Submission", id := some "LIST" }]

/-- The value `addNewSubmission.invalidatesTags` (line 62). -/
def addNewSubmission.invalidatesTags : List Tag :=
  [{ type := "Submission", id := some "LIST" }]

/-- The function `updateSubmission.invalidatesTags` (lines 73-75); `argId` is `arg.id`. -/
def updateSubmission.invalidatesTags (argId : EntityId) : List Tag :=
  [{ type := "Submission", id := argId }]

/-- The function `deleteSubmission.invalidatesTags` (lines 84-86); `argId` is `arg.id`. -/
def deleteSubmission.invalidatesTags (argId : EntityId) : List Tag :=
  [{ type := "Submission", id := argId }]

/-- The three mutation endpoints, each with the `id` property of its argument. -/
inductive Mutation where
  | addNewSubmission (argId : EntityId)
  | updateSubmission (argId : EntityId)
  | deleteSubmission (argId : EntityId)
deriving DecidableEq, Repr

/-- The tags a mutation invalidates. -/
def Mutation.invalidatesTags : Mutation → List Tag
  | .addNewSubmission _ => addNewSubmission.invalidatesTags
  | .updateSubmission argId => updateSubmission.invalidatesTags argId
  | .deleteSubmission argId => deleteSubmission.invalidatesTags argId

/-- The values of a list in order, each kept at its first occurrence only. -/
def firstOccurrences {α : Type} [DecidableEq α] : List α → List α
  | [] => []
  | x :: xs => x :: (firstOccurrences xs).filter (fun y => y ≠ x)

/-- Modelled from the spec: the schema of the Competition model (`../models/Competition`, not
among the sources), for which name, date, time and duration are mandatory.  True when one of
them is missing, which is when the model rejects the document. -/
def missingMandatory (fields : CompetitionFields) : Bool :=
  fields.name.isNone || fields.date.isNone || fields.time.isNone || fields.duration.isNone

/-- A reachable store whose model validates documents: `create` rejects a document with a
mandatory field missing, and `save` does so too. -/
def validatingEnv : StoreEnv :=
  { findRejects := false, findOneRejects := false,
    saveRejects := fun c => missingMandatory ⟨c.name, c.date, c.time, c.duration⟩,
    createRejects := missingMandatory, findByIdAndDeleteRejects := fun _ => false,
    generatedId := "65658eb6f38c223421f763be" }

/-! ## Client side: the fetch of the list and the selectors -/

/-- The parsed body of a list response, the `result` of `validateStatus` and the `responseData`
of `transformResponse`. -/
inductive ResponseBody where
  /-- No body: null or undefined. -/
  | absent
  /-- An array of records; an array has no `isError` property. -/
  | records (rs : List Submission)
  /-- An object that is not an array, with its `message` and whether its `isError` property is
  truthy. -/
  | envelope (message : String) (isError : Bool)
deriving DecidableEq, Repr

/-- The function `getSubmissions.validateStatus` (line 12),
`response.status === 200 && !result.isError`; `status` is `response.status`.  The right operand
is evaluated only when the status is 200, and reading a property of an absent result throws. -/
def getSubmissions.validateStatus (status : Nat) (result : ResponseBody) : Except JsError Bool :=
  if status = 200 then
    match result with
    | .absent => .error .typeError
    | .records _ => .ok true
    | .envelope _ isError => .ok (!isError)
  else .ok false

/-- The function `getSubmissionLanguages.validateStatus` (line 34), the same expression. -/
def getSubmissionLanguages.validateStatus (status : Nat) (result : ResponseBody) :
    Except JsError Bool :=
  if status = 200 then
    match result with
    | .absent => .error .typeError
    | .records _ => .ok true
    | .envelope _ isError => .ok (!isError)
  else .ok false

/-- The call `getSubmissions.transformResponse(body)` for an accepted body: an object that is not
an array is truthy and has no `map` method, so line 17 throws. -/
def getSubmissions.transformBody (body : ResponseBody) : Except JsError ListResult :=
  match body with
  | .absent => .ok (getSubmissions.transformResponse none).1
  | .records rs => .ok (getSubmissions.transformResponse (some rs)).1
  | .envelope _ _ => .error .typeError

/-- The cache entry of the `getSubmissions` query, which `selectSubmissionsResult` (line 100)
returns: `data` is the last transformed result, undefined (`none`) until a fetch has succeeded. -/
structure QueryState where
  data : Option ListResult
  isError : Bool
deriving DecidableEq, Repr

/-- The cache entry before any fetch. -/
def uninitialized : QueryState := { data := none, isError := false }

/-- Redux Toolkit Query, one settled fetch of the list.  The base query (of
`../../app/api/apiSlice`, not among the sources) applies an acceptance test `validate` to the
status and the parsed body.  An accepted body goes through `transformResponse`, and the result
becomes `data`.  When the test says no or throws, or `transformResponse` throws, the query is
rejected: the entry is flagged and `data` is left as it was. -/
def getSubmissions.fetched (validate : Nat → ResponseBody → Except JsError Bool)
    (status : Nat) (body : ResponseBody) (cached : QueryState) : QueryState :=
  match validate status body with
  | .ok true =>
    match getSubmissions.transformBody body with
    | .ok result => { data := some result, isError := false }
    | .error _ => { cached with isError := true }
  | _ => { cached with isError := true }

/-- The selector `selectSubmissionsData` (lines 103-106): `submissionsResult.data`. -/
def selectSubmissionsData (submissionsResult : QueryState) : Option ListResult :=
  submissionsResult.data

/-- The state the adapter's selectors read (line 113),
`selectSubmissionsData(state) ?? initialState`: only an undefined `data` is replaced. -/
def selectorInput (state : QueryState) : ListResult :=
  match selectSubmissionsData state with
  | none => .normalized initialState
  | some data => data

/-- The selector `selectSubmissionIds` (Redux Toolkit `selectIds`, `state => state.ids`):
`none` is undefined, which is what the property read gives on an array. -/
def selectSubmissionIds (state : QueryState) : Option (List EntityId) :=
  match selectorInput state with
  | .normalized s => some s.ids
  | .emptyArray => none

/-- The selector `selectAllSubmissions` (Redux Toolkit `selectAll`,
`ids.map(id => entities[id])`): on an array `ids` is undefined and the call of `map` throws. -/
def selectAllSubmissions (state : QueryState) : Except JsError (List (Option Submission)) :=
  match selectorInput state with
  | .normalized s => .ok (s.ids.map s.entityAt)
  | .emptyArray => .error .typeError

/-- The selector `selectSubmissionById` (Redux Toolkit `selectById`, `entities[id]`): on an array
`entities` is undefined and the property read throws. -/
def selectSubmissionById (state : QueryState) (id : EntityId) :
    Except JsError (Option Submission) :=
  match selectorInput state with
  | .normalized s => .ok (s.entityAt id)
  | .emptyArray => .error .typeError

/-! ## Server side: the catch-all route of `server.js` -/

/-- What the request accepts: whether `req.accepts('html')` and `req.accepts('json')` are
truthy. -/
structure Accepts where
  html : Bool
  json : Bool
deriving DecidableEq, Repr

/-- The body the catch-all handler sends. -/
inductive NotFoundBody where
  /-- The file `views/404.html`, sent with `res.sendFile`. -/
  | htmlPage
  /-- The JSON object with a `message` property, sent with `res.json`. -/
  | json (message : String)
  /-- Plain text, sent with `res.type('txt').send`. -/
  | text (content : String)
deriving DecidableEq, Repr

/-- The response of the catch-all handler. -/
structure NotFoundResponse where
  status : Nat
  body : NotFoundBody
deriving DecidableEq, Repr

/-- The handler of `app.all('*', ...)` (lines 44-53 of `server.js`), which is registered after
every route and so runs for a request that matched none. -/
def catchAll (req : Accepts) : NotFoundResponse :=
  let status := 404
  if req.html then { status := status, body := .htmlPage }
  else if req.json then { status := status, body := .json "404 Not Found" }
  else { status := status, body := .text "404 Not Found" }

/-! ## Client side: the records of a response as objects -/

/-- A record of a list response as an object: its property values, and whether the object is
frozen (`Object.isFrozen`).  The records of a freshly parsed response are not frozen. -/
structure RecordObject where
  value : Submission
  frozen : Bool
deriving DecidableEq, Repr

/-- The assignment `submission.id = submission._id` (line 18) on an object.  The slice is an ES
module, hence strict code, in which an assignment to a property of a frozen object throws a
`TypeError`. -/
def assignId (submission : RecordObject) : Except JsError RecordObject :=
  if submission.frozen then .error .typeError
  else .ok { submission with value := setId submission.value }

/-- The call `responseData.map(...)` of lines 17-20 on objects: the callback runs for the
records in turn and the first throw ends the call. -/
def assignIds : List RecordObject → Except JsError (List RecordObject)
  | [] => .ok []
  | submission :: rest =>
    match assignId submission with
    | .error e => .error e
    | .ok loaded =>
      match assignIds rest with
      | .error e => .error e
      | .ok loadedRest => .ok (loaded :: loadedRest)

/-- Redux Toolkit's `setAll` runs inside Immer's `produce`, which freezes the state it returns
together with the objects stored in it.  A record that `addOneMutably` stored (the first with its
key; `stored` are the keys so far) is frozen, a record it skipped is left as it is. -/
def freezeStored (stored : List EntityId) : List RecordObject → List RecordObject
  | [] => []
  | entity :: rest =>
    if selectId entity.value ∈ stored then entity :: freezeStored stored rest
    else { entity with frozen := true } :: freezeStored (stored ++ [selectId entity.value]) rest

/-- The function `getSubmissions.transformResponse` (lines 13-22) on objects: the result, or the
exception thrown, and with the result the caller's records as the call leaves them. -/
def getSubmissions.transformResponseInPlace (responseData : Option (List RecordObject)) :
    Except JsError (ListResult × Option (List RecordObject)) :=
  match responseData with
  | none => .ok (.emptyArray, none)
  | some records =>
    match assignIds records with
    | .error e => .error e
    | .ok loadedSubmissions =>
      .ok (.normalized (setAll initialState (loadedSubmissions.map (fun r => r.value))),
        some (freezeStored [] loadedSubmissions))

/-! ## Client side: the acceptance test of the base query -/

/-- The request arguments an endpoint's `query` hands to the base query: the url and, when the
arguments carry one, an acceptance test. -/
structure FetchArgs where
  url : String
  validateStatus : Option (Nat → ResponseBody → Except JsError Bool)

/-- The function `getSubmissions.query` (line 11), `() => '/submissions'`: a string, that is
arguments with a url and nothing else.  The `validateStatus` of line 12 is a property of the
endpoint definition beside `query`, not of what `query` returns. -/
def getSubmissions.query : FetchArgs := { url := "/submissions", validateStatus := none }

/-- The function `getSubmissionLanguages.query` (line 33), `() => '/submissions/languages'`. -/
def getSubmissionLanguages.query : FetchArgs :=
  { url := "/submissions/languages", validateStatus := none }

/-- Redux Toolkit Query, `fetchBaseQuery`: the acceptance test used when the request arguments
carry none, `response.status >= 200 && response.status <= 299`. -/
def defaultValidateStatus (status : Nat) (_result : ResponseBody) : Except JsError Bool :=
  .ok (decide (200 ≤ status ∧ status ≤ 299))

/-- Redux Toolkit Query, `fetchBaseQuery`: the acceptance test applied to a response is the one
of the request arguments, or else the default; the endpoint definition is not looked at.  The
base query of `../../app/api/apiSlice` (not among the sources) is taken to be `fetchBaseQuery`
without an acceptance test of its own. -/
def baseQueryValidate (args : FetchArgs) : Nat → ResponseBody → Except JsError Bool :=
  match args.validateStatus with
  | some validate => validate
  | none => defaultValidateStatus

/-! ## Server side: properties of the handlers -/

/-- Whatever the store does, `createCompetition` answers 500 with the creation-error envelope:
the value it calls `save` on is a function, and the call throws inside the `try`. -/
theorem createCompetition_response (env : StoreEnv) (body : Body) (docs : List Competition) :
    (createCompetition env body docs).1 = some ⟨500, .error "Error creating competition"⟩ := by
  simp [createCompetition, Value.thenProperty, await, Value.save]

/-- The store after `createCompetition` is the store after the `Competition.create` call. -/
theorem createCompetition_store (env : StoreEnv) (body : Body) (docs : List Competition) :
    (createCompetition env body docs).2
      = (Competition.create env ⟨body.name, body.date, body.time, body.duration⟩ docs).2 := by
  simp [createCompetition, Value.thenProperty, await, Value.save]

/-- When no document has the identifier, the lookup by identifier finds nothing. -/
theorem find?_id_eq_none (id : String) (docs : List Competition)
    (h : ∀ d ∈ docs, d._id ≠ id) : docs.find? (fun d => d._id = id) = none := by
  simp only [List.find?_eq_none, decide_eq_true_eq]
  exact h

/-- A document with the identifier splits the store at the first such document; the lookup finds
that document and `removeById` removes it and nothing else. -/
theorem exists_first_with_id (id : String) (docs : List Competition)
    (h : ∃ d ∈ docs, d._id = id) :
    ∃ pre d post, docs = pre ++ d :: post ∧ d._id = id ∧ (∀ x ∈ pre, x._id ≠ id) ∧
      docs.find? (fun d => d._id = id) = some d ∧ removeById id docs = pre ++ post := by
  induction docs with
  | nil => simp at h
  | cons a as ih =>
    by_cases ha : a._id = id
    · exact ⟨[], a, as, by simp, ha, by simp, by simp [ha], by simp [removeById, ha]⟩
    · have h' : ∃ d ∈ as, d._id = id := by
        obtain ⟨d, hd, hid⟩ := h
        rcases List.mem_cons.1 hd with rfl | hd
        · exact absurd hid ha
        · exact ⟨d, hd, hid⟩
      obtain ⟨pre, d, post, hsplit, hid, hpre, hfind, hrem⟩ := ih h'
      refine ⟨a :: pre, d, post, by simp [hsplit], hid, ?_, ?_, ?_⟩
      · intro x hx
        rcases List.mem_cons.1 hx with rfl | hx
        · exact ha
        · exact hpre x hx
      · simp [ha, hfind]
      · simp [removeById, ha, hrem]

/-- C1, as stated, fails: with an empty store and a lookup that rejects (the database is
unreachable), `updateCompetition` answers 500 with the update-error envelope, not 404. -/
theorem updateCompetition_empty_store_lookup_rejects :
    updateCompetition unreachableEnv ⟨some "Spring Cup", none, none, none⟩ []
        = (⟨500, .error "Error updating competition"⟩, []) ∧
      (updateCompetition unreachableEnv ⟨some "Spring Cup", none, none, none⟩ []).1
        ≠ ⟨404, .message "Competition not found"⟩ := by
  decide

/-- C1 (amended): for every request body, when the competition store is empty and the lookup
answers, `updateCompetition` responds with status 404 and body
`{message: 'Competition not found'}`, and the store is still empty afterwards. -/
theorem updateCompetition_empty_store (env : StoreEnv) (body : Body)
    (hlookup : env.findOneRejects = false) :
    updateCompetition env body [] = (⟨404, .message "Competition not found"⟩, []) := by
  simp [updateCompetition, Competition.findOne, hlookup]

/-- C1 (amended), at a concrete request. -/
theorem updateCompetition_empty_store_witness :
    healthyEnv.findOneRejects = false ∧
      updateCompetition healthyEnv ⟨some "Spring Cup", none, none, none⟩ []
        = (⟨404, .message "Competition not found"⟩, []) :=
  ⟨rfl, updateCompetition_empty_store healthyEnv ⟨some "Spring Cup", none, none, none⟩ rfl⟩

/-- C2: for a non-empty store `first :: others` and every request body, when the lookup and the
save succeed, `updateCompetition` responds (status 200) with the record `updated`, which has the
body's name, date, time and duration and the identifier of `first`, and the store afterwards is
`updated :: others`: every other record is unchanged. -/
theorem updateCompetition_overwrites_first (env : StoreEnv) (body : Body)
    (first : Competition) (others : List Competition)
    (hlookup : env.findOneRejects = false)
    (hsave : env.saveRejects ⟨first._id, body.name, body.date, body.time, body.duration⟩ = false) :
    ∃ updated : Competition,
      updateCompetition env body (first :: others)
        = (⟨200, .competition updated⟩, updated :: others) ∧
      updated.name = body.name ∧ updated.date = body.date ∧ updated.time = body.time ∧
      updated.duration = body.duration ∧ updated._id = first._id := by
  refine ⟨⟨first._id, body.name, body.date, body.time, body.duration⟩, ?_, rfl, rfl, rfl, rfl, rfl⟩
  simp [updateCompetition, Competition.findOne, Competition.save, replaceById, hlookup, hsave]

/-- C2, at a store of two records: the second record is untouched. -/
theorem updateCompetition_overwrites_first_witness :
    healthyEnv.findOneRejects = false ∧
    healthyEnv.saveRejects ⟨"c1", some "Spring Cup", some "2024-05-01", some "10:00", none⟩ = false ∧
    ∃ updated : Competition,
      updateCompetition healthyEnv ⟨some "Spring Cup", some "2024-05-01", some "10:00", none⟩
          (⟨"c1", some "Old", none, none, some "2"⟩ :: [⟨"c2", some "Other", none, none, none⟩])
        = (⟨200, .competition updated⟩, updated :: [⟨"c2", some "Other", none, none, none⟩]) ∧
      updated.name = some "Spring Cup" ∧ updated.date = some "2024-05-01" ∧
      updated.time = some "10:00" ∧ updated.duration = none ∧ updated._id = "c1" :=
  ⟨rfl, rfl,
    updateCompetition_overwrites_first healthyEnv
      ⟨some "Spring Cup", some "2024-05-01", some "10:00", none⟩
      ⟨"c1", some "Old", none, none, some "2"⟩ [⟨"c2", some "Other", none, none, none⟩] rfl rfl⟩

/-- C3 fails on the code: for a body carrying all four fields and a store that accepts the
write, `createCompetition` responds with status 500 and the creation-error envelope, although
the record has been inserted by the `Competition.create` call. -/
theorem createCompetition_complete_body_answers_500 :
    createCompetition healthyEnv
        ⟨some "Spring Cup", some "2024-05-01", some "10:00", some "3"⟩ []
      = (some ⟨500, .error "Error creating competition"⟩,
          [⟨"65658eb6f38c223421f763be", some "Spring Cup", some "2024-05-01", some "10:00",
            some "3"⟩]) := by
  decide

/-- C4 fails on the code: for a body without a name, against a model that rejects the document,
`createCompetition` persists no record but responds with status 500 and the creation-error
envelope; no response with a client-error status is sent. -/
theorem createCompetition_missing_name_answers_500 :
    createCompetition validatingEnv ⟨none, some "2024-05-01", some "10:00", some "3"⟩
        [⟨"c1", some "Old", none, none, none⟩]
      = (some ⟨500, .error "Error creating competition"⟩,
          [⟨"c1", some "Old", none, none, none⟩]) ∧
      ¬ ∃ response,
          (createCompetition validatingEnv ⟨none, some "2024-05-01", some "10:00", some "3"⟩
              [⟨"c1", some "Old", none, none, none⟩]).1 = some response ∧
            400 ≤ response.status ∧ response.status < 500 := by
  refine ⟨by decide, ?_⟩
  rintro ⟨response, hresponse, _, hlt⟩
  rw [createCompetition_response] at hresponse
  cases hresponse
  exact absurd hlt (by decide)

/-- C5, as stated, fails: for an identifier that matches no record, when the store operation
rejects, `deleteCompetition` responds with status 500 and the deletion-error envelope, not 404. -/
theorem deleteCompetition_unmatched_id_store_rejects :
    (∀ d ∈ [(⟨"c1", some "Old", none, none, none⟩ : Competition)], d._id ≠ "not-an-id") ∧
      deleteCompetition unreachableEnv "not-an-id" [⟨"c1", some "Old", none, none, none⟩]
        = (⟨500, .error "Error deleting competition"⟩, [⟨"c1", some "Old", none, none, none⟩]) ∧
      (deleteCompetition unreachableEnv "not-an-id" [⟨"c1", some "Old", none, none, none⟩]).1
        ≠ ⟨404, .message "Competition not found"⟩ := by
  decide

/-- C5 (amended): when the store operation answers, for an identifier that matches no record
`deleteCompetition` responds with status 404 and body `{message: 'Competition not found'}` and
leaves the store unchanged; for an identifier that matches a record it removes exactly the first
record `d` with that identifier (the store `pre ++ d :: post` becomes `pre ++ post`) and responds
`{message: 'Competition deleted successfully'}`. -/
theorem deleteCompetition_when_store_answers (env : StoreEnv) (competitionId : String)
    (docs : List Competition) (hanswers : env.findByIdAndDeleteRejects competitionId = false) :
    ((∀ d ∈ docs, d._id ≠ competitionId) →
        deleteCompetition env competitionId docs
          = (⟨404, .message "Competition not found"⟩, docs)) ∧
      ((∃ d ∈ docs, d._id = competitionId) →
        ∃ pre d post, docs = pre ++ d :: post ∧ d._id = competitionId ∧
          (∀ x ∈ pre, x._id ≠ competitionId) ∧
          deleteCompetition env competitionId docs
            = (⟨200, .message "Competition deleted successfully"⟩, pre ++ post)) := by
  constructor
  · intro hnone
    simp [deleteCompetition, Competition.findByIdAndDelete, hanswers,
      find?_id_eq_none competitionId docs hnone]
  · intro hsome
    obtain ⟨pre, d, post, hsplit, hid, hpre, hfind, hrem⟩ :=
      exists_first_with_id competitionId docs hsome
    refine ⟨pre, d, post, hsplit, hid, hpre, ?_⟩
    simp [deleteCompetition, Competition.findByIdAndDelete, hanswers, hfind, hrem]

/-- C5 (amended), at a store of three records: "c2" matches a record, the store splits at it,
and the response confirms the deletion. -/
theorem deleteCompetition_when_store_answers_witness :
    healthyEnv.findByIdAndDeleteRejects "c2" = false ∧
      (∃ d ∈ [(⟨"c1", none, none, none, none⟩ : Competition), ⟨"c2", none, none, none, none⟩,
          ⟨"c3", none, none, none, none⟩], d._id = "c2") ∧
      ∃ pre d post,
        [(⟨"c1", none, none, none, none⟩ : Competition), ⟨"c2", none, none, none, none⟩,
          ⟨"c3", none, none, none, none⟩] = pre ++ d :: post ∧ d._id = "c2" ∧
        (∀ x ∈ pre, x._id ≠ "c2") ∧
        deleteCompetition healthyEnv "c2"
            [⟨"c1", none, none, none, none⟩, ⟨"c2", none, none, none, none⟩,
              ⟨"c3", none, none, none, none⟩]
          = (⟨200, .message "Competition deleted successfully"⟩, pre ++ post) :=
  ⟨rfl, ⟨⟨"c2", none, none, none, none⟩, by simp, rfl⟩,
    (deleteCompetition_when_store_answers healthyEnv "c2"
      [⟨"c1", none, none, none, none⟩, ⟨"c2", none, none, none, none⟩,
        ⟨"c3", none, none, none, none⟩] rfl).2 ⟨⟨"c2", none, none, none, none⟩, by simp, rfl⟩⟩

/-- C6: for every competition store, `getAllCompetitions` responds (status 200) with all records
of the store in the store's order when the lookup succeeds, and with status 500 and body
`{error: 'Error fetching competitions'}`, which holds no record, when the lookup fails; in both
cases the store afterwards is the store before. -/
theorem getAllCompetitions_lists_or_fails (env : StoreEnv) (docs : List Competition) :
    (env.findRejects = false →
        (getAllCompetitions env docs).1 = ⟨200, .competitions docs⟩) ∧
      (env.findRejects = true →
        (getAllCompetitions env docs).1 = ⟨500, .error "Error fetching competitions"⟩) ∧
      (getAllCompetitions env docs).2 = docs := by
  cases h : env.findRejects <;> simp [getAllCompetitions, Competition.find, h]

/-- C6, at a store of two records, for a store that answers and for one that does not. -/
theorem getAllCompetitions_lists_or_fails_witness :
    (getAllCompetitions healthyEnv
        [⟨"c1", some "A", none, none, none⟩, ⟨"c2", some "B", none, none, none⟩]).1
      = ⟨200, .competitions
          [⟨"c1", some "A", none, none, none⟩, ⟨"c2", some "B", none, none, none⟩]⟩ ∧
    (getAllCompetitions unreachableEnv
        [⟨"c1", some "A", none, none, none⟩, ⟨"c2", some "B", none, none, none⟩]).1
      = ⟨500, .error "Error fetching competitions"⟩ :=
  ⟨(getAllCompetitions_lists_or_fails healthyEnv _).1 rfl,
    (getAllCompetitions_lists_or_fails unreachableEnv _).2.1 rfl⟩

/-! ## Client side: properties of the entity adapter -/

/-- Setting `id` a second time changes nothing. -/
theorem setId_setId (submission : Submission) : setId (setId submission) = setId submission := rfl

/-- The key of a record whose `id` has been set is its `_id`. -/
theorem selectId_setId (submission : Submission) :
    selectId (setId submission) = some submission._id := rfl

/-- The test `key in state.entities` is membership among the keys. -/
theorem any_key_iff (entities : List (EntityId × Submission)) (key : EntityId) :
    entities.any (fun p => p.1 = key) = true ↔ key ∈ entities.map Prod.fst := by
  simp [List.any_eq_true, List.mem_map]

/-- No value occurs twice among the first occurrences. -/
theorem firstOccurrences_nodup {α : Type} [DecidableEq α] (xs : List α) :
    (firstOccurrences xs).Nodup := by
  induction xs with
  | nil => simp [firstOccurrences]
  | cons x xs ih =>
    simp only [firstOccurrences, List.nodup_cons]
    exact ⟨by simp [List.mem_filter], ih.filter _⟩

/-- The first occurrences have the members of the list. -/
theorem mem_firstOccurrences {α : Type} [DecidableEq α] (xs : List α) (a : α) :
    a ∈ firstOccurrences xs ↔ a ∈ xs := by
  induction xs with
  | nil => simp [firstOccurrences]
  | cons x xs ih =>
    simp only [firstOccurrences, List.mem_cons, List.mem_filter, ih, decide_eq_true_eq]
    by_cases h : a = x <;> simp [h]

/-- Adding entities to a state whose keys are its ids appends, in order, the first occurrence of
every key not yet present, and the keys of the result are its ids again. -/
theorem addManyMutably_ids (newEntities : List Submission) (state : EntityState)
    (hkeys : state.entities.map Prod.fst = state.ids) :
    (addManyMutably newEntities state).ids
        = state.ids ++
          (firstOccurrences (newEntities.map selectId)).filter (fun k => k ∉ state.ids) ∧
      (addManyMutably newEntities state).entities.map Prod.fst
        = (addManyMutably newEntities state).ids := by
  induction newEntities generalizing state with
  | nil => simp [addManyMutably, firstOccurrences, hkeys]
  | cons x xs ih =>
    have hstep : addManyMutably (x :: xs) state = addManyMutably xs (addOneMutably x state) := rfl
    rw [hstep]
    by_cases hin : selectId x ∈ state.ids
    · have hany : state.entities.any (fun p => p.1 = selectId x) = true :=
        (any_key_iff _ _).2 (hkeys ▸ hin)
      have hsame : addOneMutably x state = state := by simp [addOneMutably, hany]
      rw [hsame]
      refine ⟨?_, (ih state hkeys).2⟩
      rw [(ih state hkeys).1]
      simp only [List.map_cons, firstOccurrences, List.filter_cons, List.filter_filter]
      simp only [hin, not_true_eq_false, decide_False, Bool.false_eq_true, if_false]
      congr 1
      apply List.filter_congr
      intro k _
      by_cases hk : k = selectId x
      · simp [hk, hin]
      · simp [hk]
    · have hany : ¬ state.entities.any (fun p => p.1 = selectId x) = true := fun h =>
        hin (hkeys ▸ (any_key_iff _ _).1 h)
      have hnew : addOneMutably x state
          = { ids := state.ids ++ [selectId x],
              entities := state.entities ++ [(selectId x, x)] } := by
        simp [addOneMutably, hany]
      have hkeys' : (addOneMutably x state).entities.map Prod.fst
          = (addOneMutably x state).ids := by
        simp [hnew, hkeys]
      refine ⟨?_, (ih _ hkeys').2⟩
      rw [(ih _ hkeys').1, hnew]
      simp only [List.map_cons, firstOccurrences, List.filter_cons, List.filter_filter]
      simp only [hin, not_false_eq_true, decide_True, if_true, List.append_assoc,
        List.singleton_append]
      congr 2
      apply List.filter_congr
      intro k _
      by_cases hk : k = selectId x
      · simp [hk]
      · simp [hk]

/-- The entity stored under a key after adding entities: the one already stored, or else the
first added entity with that key. -/
theorem addManyMutably_entityAt (newEntities : List Submission) (state : EntityState)
    (key : EntityId) :
    (addManyMutably newEntities state).entityAt key
      = match state.entityAt key with
        | some e => some e
        | none => newEntities.find? (fun e => selectId e = key) := by
  induction newEntities generalizing state with
  | nil =>
    simp only [addManyMutably, List.foldl_nil, List.find?_nil]
    cases state.entityAt key <;> rfl
  | cons x xs ih =>
    have hstep : addManyMutably (x :: xs) state = addManyMutably xs (addOneMutably x state) := rfl
    rw [hstep, ih]
    by_cases hany : state.entities.any (fun p => p.1 = selectId x) = true
    · have hsame : addOneMutably x state = state := by simp [addOneMutably, hany]
      rw [hsame]
      cases hat : state.entityAt key with
      | some e => rfl
      | none =>
        have hne : ¬ selectId x = key := by
          intro hk
          rw [hk] at hany
          obtain ⟨p, hp, hpk⟩ := List.any_eq_true.1 hany
          have hnone : state.entities.find? (fun p => p.1 = key) = none := by
            simpa [EntityState.entityAt] using hat
          exact absurd hpk (List.find?_eq_none.1 hnone p hp)
        simp [List.find?_cons, hne]
    · have hnew : addOneMutably x state
          = { ids := state.ids ++ [selectId x],
              entities := state.entities ++ [(selectId x, x)] } := by
        simp [addOneMutably, hany]
      rw [hnew]
      cases hat : state.entityAt key with
      | some e =>
        have hfound : ∃ p, state.entities.find? (fun p => p.1 = key) = some p ∧ p.2 = e := by
          simpa [EntityState.entityAt] using hat
        obtain ⟨p, hp, hpe⟩ := hfound
        simp [EntityState.entityAt, List.find?_append, hp, hpe]
      | none =>
        have hnone : state.entities.find? (fun p => p.1 = key) = none := by
          simpa [EntityState.entityAt] using hat
        by_cases hk : selectId x = key
        · simp [EntityState.entityAt, List.find?_append, hnone, List.find?_cons, hk]
        · simp [EntityState.entityAt, List.find?_append, hnone, List.find?_cons, hk]

/-- The result of `setAll` does not depend on the state it is given. -/
theorem setAll_eq_of_initialState (state : EntityState) (newEntities : List Submission) :
    setAll state newEntities = setAll initialState newEntities := rfl

/-! ## Client side: properties of `getSubmissions` and of the mutations -/

/-- C8: for every raw list response that is not absent, `getSubmissions.transformResponse`
returns an adapter state `state` such that
* `setAll` gives this state whatever state it starts from (nothing of a previous collection is
  kept);
* `state.ids` is the records' `_id` values in response order, each at its first occurrence, and
  no identifier is repeated;
* the keys of the entity mapping are exactly the ids, and an identifier is in `ids` exactly when
  the mapping has an entity for it;
* the entity stored for an identifier is the first raw record with that `_id`, with `id` set to
  its `_id` and `_id` and all other fields unchanged. -/
theorem transformResponse_normalizes (records : List Submission) :
    ∃ state : EntityState,
      (getSubmissions.transformResponse (some records)).1 = .normalized state ∧
      (∀ previous : EntityState, setAll previous (records.map setId) = state) ∧
      state.ids = firstOccurrences (records.map (fun r => some r._id)) ∧
      state.ids.Nodup ∧
      state.entities.map Prod.fst = state.ids ∧
      (∀ key, key ∈ state.ids ↔ (state.entityAt key).isSome = true) ∧
      (∀ key, state.entityAt key
          = (records.find? (fun r => some r._id = key)).map setId) ∧
      (∀ key e, state.entityAt key = some e →
          ∃ r ∈ records, key = some r._id ∧ e.id = some r._id ∧ e._id = r._id ∧
            e.fields = r.fields) := by
  have hids := addManyMutably_ids (records.map setId) initialState rfl
  have hmap : (records.map setId).map selectId = records.map (fun r => some r._id) := by
    simp [List.map_map, Function.comp_def, selectId_setId]
  have hidsEq : (setAll initialState (records.map setId)).ids
      = firstOccurrences (records.map (fun r => some r._id)) := by
    have h := hids.1
    rw [hmap] at h
    simpa [setAll, initialState] using h
  have hat : ∀ key, (setAll initialState (records.map setId)).entityAt key
      = (records.find? (fun r => some r._id = key)).map setId := by
    intro key
    have h := addManyMutably_entityAt (records.map setId) initialState key
    have hempty : initialState.entityAt key = none := rfl
    rw [hempty] at h
    have hfind : (records.map setId).find? (fun e => selectId e = key)
        = (records.find? (fun r => some r._id = key)).map setId := by
      rw [List.find?_map]
      rfl
    exact h.trans hfind
  refine ⟨setAll initialState (records.map setId), rfl, fun _ => rfl, hidsEq, ?_, hids.2, ?_,
    hat, ?_⟩
  · rw [hidsEq]
    exact firstOccurrences_nodup _
  · intro key
    rw [hidsEq, mem_firstOccurrences, hat]
    cases hfind : records.find? (fun r => some r._id = key) with
    | none =>
      have hall := List.find?_eq_none.1 hfind
      simp only [Option.map_none', Option.isSome_none, Bool.false_eq_true, iff_false,
        List.mem_map, not_exists, not_and]
      intro r hr hk
      exact hall r hr (by simpa using hk)
    | some r =>
      simp only [Option.map_some', Option.isSome_some, iff_true, List.mem_map]
      exact ⟨r, List.mem_of_find?_eq_some hfind, by simpa using List.find?_some hfind⟩
  · intro key e he
    rw [hat] at he
    obtain ⟨r, hr, hre⟩ := Option.map_eq_some'.1 he
    have hmem : r ∈ records := List.mem_of_find?_eq_some hr
    have hkey : some r._id = key := by simpa using List.find?_some hr
    subst hre
    exact ⟨r, hmem, hkey.symm, rfl, rfl, rfl⟩

/-- C9: for a list result that has an id sequence (an adapter state), `getSubmissions.providesTags`
returns the collection-level tag `{type: 'Submission', id: 'LIST'}` followed by one tag
`{type: 'Submission', id}` per member id, in id order, `1 + ids.length` tags in all; for a result
without an id sequence (the empty array, or no result) it returns only the collection-level
tag. -/
theorem providesTags_list_then_members :
    (∀ state : EntityState,
        getSubmissions.providesTags (some (.normalized state))
          = { type := "Submission", id := some "LIST" } ::
              state.ids.map (fun id => ({ type := "Submission", id := id } : Tag)) ∧
        (getSubmissions.providesTags (some (.normalized state))).length
          = 1 + state.ids.length ∧
        ∀ (i : Nat) (id : EntityId), state.ids[i]? = some id →
          (getSubmissions.providesTags (some (.normalized state)))[i + 1]?
            = some { type := "Submission", id := id }) ∧
      getSubmissions.providesTags (some .emptyArray)
        = [{ type := "Submission", id := some "LIST" }] ∧
      getSubmissions.providesTags none = [{ type := "Submission", id := some "LIST" }] := by
  refine ⟨fun state => ⟨rfl, ?_, ?_⟩, rfl, rfl⟩
  · simp [getSubmissions.providesTags, Nat.add_comm]
  · intro i id hi
    simp [getSubmissions.providesTags, hi]

/-- C10, as stated, fails: the cached list holds the one submission "a"; `updateSubmission` with
an argument whose id is "b" invalidates only `{type: 'Submission', id: 'b'}`, and none of its tags
is among the tags of the list result (and likewise for `deleteSubmission`). -/
theorem update_of_unlisted_id_shares_no_tag :
    (∀ t ∈ (Mutation.updateSubmission (some "b")).invalidatesTags,
        t ∉ getSubmissions.providesTags
          (some (getSubmissions.transformResponse (some [⟨"a", none, []⟩])).1)) ∧
      (∀ t ∈ (Mutation.deleteSubmission (some "b")).invalidatesTags,
        t ∉ getSubmissions.providesTags
          (some (getSubmissions.transformResponse (some [⟨"a", none, []⟩])).1)) := by
  decide

/-- C10 (amended): for every list result and every argument, `addNewSubmission` invalidates the
collection-level tag, which is among the tags `getSubmissions.providesTags` gives for the list
result; `updateSubmission` and `deleteSubmission` invalidate the single tag
`{type: 'Submission', id: arg.id}`, which is among the tags of the list result exactly when
`arg.id` is 'LIST' or the result has an id sequence of which `arg.id` is a member. -/
theorem invalidated_tag_shared_iff (result : Option ListResult) (argId : EntityId) :
    (∃ t ∈ (Mutation.addNewSubmission argId).invalidatesTags,
        t ∈ getSubmissions.providesTags result) ∧
      ((∃ t ∈ (Mutation.updateSubmission argId).invalidatesTags,
          t ∈ getSubmissions.providesTags result) ↔
        (argId = some "LIST" ∨
          ∃ state, result = some (.normalized state) ∧ argId ∈ state.ids)) ∧
      ((∃ t ∈ (Mutation.deleteSubmission argId).invalidatesTags,
          t ∈ getSubmissions.providesTags result) ↔
        (argId = some "LIST" ∨
          ∃ state, result = some (.normalized state) ∧ argId ∈ state.ids)) := by
  have hshared : ({ type := "Submission", id := argId } : Tag)
        ∈ getSubmissions.providesTags result ↔
      (argId = some "LIST" ∨
        ∃ state, result = some (.normalized state) ∧ argId ∈ state.ids) := by
    rcases result with _ | _ | state
    · simp [getSubmissions.providesTags]
    · simp [getSubmissions.providesTags]
    · simp [getSubmissions.providesTags]
  refine ⟨?_, ?_, ?_⟩
  · refine ⟨{ type := "Submission", id := some "LIST" }, by
      simp [Mutation.invalidatesTags, addNewSubmission.invalidatesTags], ?_⟩
    rcases result with _ | _ | state <;> simp [getSubmissions.providesTags]
  · simpa [Mutation.invalidatesTags, updateSubmission.invalidatesTags] using hshared
  · simpa [Mutation.invalidatesTags, deleteSubmission.invalidatesTags] using hshared

/-! ## Client side: properties of the fetch and of the selectors -/

/-- A list without repeated values is its own sequence of first occurrences. -/
theorem firstOccurrences_of_nodup {α : Type} [DecidableEq α] (xs : List α) (h : xs.Nodup) :
    firstOccurrences xs = xs := by
  induction xs with
  | nil => rfl
  | cons x xs ih =>
    obtain ⟨hx, hxs⟩ := List.nodup_cons.1 h
    simp only [firstOccurrences, ih hxs]
    congr 1
    apply List.filter_eq_self.2
    intro y hy
    have hne : y ≠ x := fun hyx => hx (hyx ▸ hy)
    simp [hne]

/-- The ids of the state built from the records with `id` set. -/
theorem setAll_loaded_ids (records : List Submission) :
    (setAll initialState (records.map setId)).ids
      = firstOccurrences (records.map (fun r => some r._id)) := by
  have h := (addManyMutably_ids (records.map setId) initialState rfl).1
  have hmap : (records.map setId).map selectId = records.map (fun r => some r._id) := by
    simp [List.map_map, Function.comp_def, selectId_setId]
  rw [hmap] at h
  simpa [setAll, initialState] using h

/-- The entity under a key in the state built from the records with `id` set. -/
theorem setAll_loaded_entityAt (records : List Submission) (key : EntityId) :
    (setAll initialState (records.map setId)).entityAt key
      = (records.find? (fun r => some r._id = key)).map setId := by
  have h := addManyMutably_entityAt (records.map setId) initialState key
  have hempty : initialState.entityAt key = none := rfl
  rw [hempty] at h
  have hfind : (records.map setId).find? (fun e => selectId e = key)
      = (records.find? (fun r => some r._id = key)).map setId := by
    rw [List.find?_map]
    rfl
  exact h.trans hfind

/-- Among records with pairwise distinct `_id`, the lookup by the `_id` of a record finds that
record. -/
theorem find?_of_distinct_ids (records : List Submission)
    (hdistinct : (records.map (fun r => r._id)).Nodup) (r : Submission) (hr : r ∈ records) :
    records.find? (fun x => some x._id = some r._id) = some r := by
  induction records with
  | nil => simp at hr
  | cons a as ih =>
    simp only [List.map_cons, List.nodup_cons] at hdistinct
    obtain ⟨ha, has⟩ := hdistinct
    rcases List.mem_cons.1 hr with rfl | hr'
    · simp
    · have hne : a._id ≠ r._id := by
        intro heq
        exact ha (heq ▸ List.mem_map_of_mem (fun r => r._id) hr')
      have hih := ih has hr'
      simp only [Option.some.injEq] at hih ⊢
      simp [List.find?_cons, hne, hih]

/-- The selectors read `data` only. -/
theorem selectorInput_congr (s t : QueryState) (h : s.data = t.data) :
    selectorInput s = selectorInput t := by
  simp [selectorInput, selectSubmissionsData, h]

/-- For a body that is present, `validateStatus` gives a verdict: an array is accepted exactly at
status 200, an object exactly at status 200 with a falsy `isError`. -/
theorem validateStatus_present_body (status : Nat) :
    (∀ rs, getSubmissions.validateStatus status (.records rs) = .ok (decide (status = 200))) ∧
      (∀ message isError, getSubmissions.validateStatus status (.envelope message isError)
        = .ok (decide (status = 200) && !isError)) := by
  by_cases h : status = 200 <;> simp [getSubmissions.validateStatus, h]

/-- C11, as stated, fails: the list [a] is cached by a first fetch; a second fetch whose response
has status 200 and a payload with the error flag set leaves it cached, and `selectSubmissionIds`
and `selectAllSubmissions` still give the id "a" and its record, not the empty sequence. -/
theorem error_flag_fetch_keeps_cached_list :
    selectSubmissionIds
        (getSubmissions.fetched getSubmissions.validateStatus 200
          (.envelope "No submissions found" true)
          (getSubmissions.fetched getSubmissions.validateStatus 200
            (.records [⟨"a", none, []⟩]) uninitialized))
      = some [some "a"] ∧
    selectSubmissionIds
        (getSubmissions.fetched getSubmissions.validateStatus 200
          (.envelope "No submissions found" true)
          (getSubmissions.fetched getSubmissions.validateStatus 200
            (.records [⟨"a", none, []⟩]) uninitialized))
      ≠ some [] ∧
    selectAllSubmissions
        (getSubmissions.fetched getSubmissions.validateStatus 200
          (.envelope "No submissions found" true)
          (getSubmissions.fetched getSubmissions.validateStatus 200
            (.records [⟨"a", none, []⟩]) uninitialized))
      = .ok [some ⟨"a", some "a", []⟩] := by
  refine ⟨by decide, by decide, rfl⟩

/-- C11 (amended): for every previously cached submissions collection, after a list fetch whose
response has HTTP status 200 and an error flag set in the payload, the fetch is rejected (the
endpoint's `validateStatus` says no, and so the result holds for every acceptance test of the
base query) and the cached data is left as it was: the selectors read what they read before, and
they read the empty collection when nothing had been cached. -/
theorem error_flag_fetch_keeps_data (validate : Nat → ResponseBody → Except JsError Bool)
    (message : String) (cached : QueryState) :
    getSubmissions.validateStatus 200 (.envelope message true) = .ok false ∧
      (getSubmissions.fetched validate 200 (.envelope message true) cached).data = cached.data ∧
      (getSubmissions.fetched validate 200 (.envelope message true) cached).isError = true ∧
      selectSubmissionIds (getSubmissions.fetched validate 200 (.envelope message true) cached)
        = selectSubmissionIds cached ∧
      selectAllSubmissions (getSubmissions.fetched validate 200 (.envelope message true) cached)
        = selectAllSubmissions cached ∧
      (∀ id,
        selectSubmissionById (getSubmissions.fetched validate 200 (.envelope message true) cached)
            id
          = selectSubmissionById cached id) ∧
      (cached.data = none →
        selectSubmissionIds (getSubmissions.fetched validate 200 (.envelope message true) cached)
            = some [] ∧
          selectAllSubmissions
              (getSubmissions.fetched validate 200 (.envelope message true) cached)
            = .ok []) := by
  have hfetched : getSubmissions.fetched validate 200 (.envelope message true) cached
      = { cached with isError := true } := by
    unfold getSubmissions.fetched
    cases validate 200 (.envelope message true) with
    | error e => rfl
    | ok accepted => cases accepted <;> rfl
  have hinput : selectorInput (getSubmissions.fetched validate 200 (.envelope message true) cached)
      = selectorInput cached := selectorInput_congr _ _ (by rw [hfetched])
  refine ⟨rfl, by rw [hfetched], by rw [hfetched], ?_, ?_, ?_, ?_⟩
  · simp only [selectSubmissionIds, hinput]
  · simp only [selectAllSubmissions, hinput]
  · intro id
    simp only [selectSubmissionById, hinput]
  · intro hnone
    have hinit : selectorInput cached = .normalized initialState := by
      simp [selectorInput, selectSubmissionsData, hnone]
    simp [selectSubmissionIds, selectAllSubmissions, hinput, hinit, initialState]

/-- C11 (amended), with nothing cached and with the list [a] cached: the selectors read the empty
sequence in the first case. -/
theorem error_flag_fetch_keeps_data_witness :
    uninitialized.data = none ∧
      selectSubmissionIds
          (getSubmissions.fetched getSubmissions.validateStatus 200
            (.envelope "No submissions found" true) uninitialized)
        = some [] ∧
      (getSubmissions.fetched getSubmissions.validateStatus 200
          (.envelope "No submissions found" true)
          ⟨some (.normalized ⟨[some "a"], [(some "a", ⟨"a", some "a", []⟩)]⟩), false⟩).data
        = some (.normalized ⟨[some "a"], [(some "a", ⟨"a", some "a", []⟩)]⟩) :=
  ⟨rfl,
    ((error_flag_fetch_keeps_data getSubmissions.validateStatus "No submissions found"
      uninitialized).2.2.2.2.2.2 rfl).1,
    (error_flag_fetch_keeps_data getSubmissions.validateStatus "No submissions found"
      ⟨some (.normalized ⟨[some "a"], [(some "a", ⟨"a", some "a", []⟩)]⟩), false⟩).2.1⟩

/-- C13: for the collection `getSubmissions.transformResponse` produces from a raw list with
pairwise distinct `_id` values, `selectSubmissionIds` returns the records' `_id` values in
response order, `selectAllSubmissions` returns the records (with `id` set) in that order,
`selectSubmissionById` returns for the `_id` of a record that record and nothing for an id that
is not in the collection; and when no data is cached the selectors read the empty initial
state. -/
theorem selectors_of_distinct_ids (records : List Submission) (isError : Bool)
    (hdistinct : (records.map (fun r => r._id)).Nodup) :
    selectSubmissionIds ⟨some (getSubmissions.transformResponse (some records)).1, isError⟩
        = some (records.map (fun r => some r._id)) ∧
      selectAllSubmissions ⟨some (getSubmissions.transformResponse (some records)).1, isError⟩
        = .ok (records.map (fun r => some (setId r))) ∧
      (∀ r ∈ records,
        selectSubmissionById ⟨some (getSubmissions.transformResponse (some records)).1, isError⟩
            (some r._id)
          = .ok (some (setId r)) ∧ (setId r)._id = r._id) ∧
      (∀ id, id ∉ records.map (fun r => some r._id) →
        selectSubmissionById ⟨some (getSubmissions.transformResponse (some records)).1, isError⟩
            id
          = .ok none) ∧
      selectorInput ⟨none, isError⟩ = .normalized initialState ∧
      selectSubmissionIds ⟨none, isError⟩ = some [] ∧
      selectAllSubmissions ⟨none, isError⟩ = .ok [] ∧
      (∀ id, selectSubmissionById ⟨none, isError⟩ id = .ok none) := by
  have hnodup : (records.map (fun r => some r._id)).Nodup := by
    have h := hdistinct.map (f := some) (Option.some_injective String)
    simpa [List.map_map, Function.comp_def] using h
  have hids : (setAll initialState (records.map setId)).ids
      = records.map (fun r => some r._id) := by
    rw [setAll_loaded_ids, firstOccurrences_of_nodup _ hnodup]
  have hinput : ∀ e : Bool,
      selectorInput ⟨some (getSubmissions.transformResponse (some records)).1, e⟩
        = .normalized (setAll initialState (records.map setId)) := fun _ => rfl
  refine ⟨?_, ?_, ?_, ?_, rfl, rfl, rfl, fun _ => rfl⟩
  · simp only [selectSubmissionIds, hinput, hids]
  · simp only [selectAllSubmissions, hinput, hids, List.map_map]
    congr 1
    apply List.map_congr_left
    intro r hr
    simp only [Function.comp_apply, setAll_loaded_entityAt,
      find?_of_distinct_ids records hdistinct r hr, Option.map_some']
  · intro r hr
    refine ⟨?_, rfl⟩
    simp only [selectSubmissionById, hinput, setAll_loaded_entityAt,
      find?_of_distinct_ids records hdistinct r hr, Option.map_some']
  · intro id hid
    have hnone : records.find? (fun r => some r._id = id) = none := by
      apply List.find?_eq_none.2
      intro r hr hk
      exact hid (List.mem_map.2 ⟨r, hr, by simpa using hk⟩)
    simp only [selectSubmissionById, hinput, setAll_loaded_entityAt, hnone, Option.map_none']

/-- C13, at a raw list of two records with the ids "a" and "b". -/
theorem selectors_of_distinct_ids_witness :
    (([⟨"a", none, [("language", "python")]⟩, ⟨"b", none, []⟩] : List Submission).map
        (fun r => r._id)).Nodup ∧
      selectSubmissionIds
          ⟨some (getSubmissions.transformResponse
            (some [⟨"a", none, [("language", "python")]⟩, ⟨"b", none, []⟩])).1, false⟩
        = some [some "a", some "b"] ∧
      selectAllSubmissions
          ⟨some (getSubmissions.transformResponse
            (some [⟨"a", none, [("language", "python")]⟩, ⟨"b", none, []⟩])).1, false⟩
        = .ok [some ⟨"a", some "a", [("language", "python")]⟩, some ⟨"b", some "b", []⟩] :=
  ⟨by decide,
    (selectors_of_distinct_ids [⟨"a", none, [("language", "python")]⟩, ⟨"b", none, []⟩] false
      (by decide)).1,
    (selectors_of_distinct_ids [⟨"a", none, [("language", "python")]⟩, ⟨"b", none, []⟩] false
      (by decide)).2.1⟩

/-- C15 fails on the code: for absent response data `getSubmissions.transformResponse` returns
the empty array, which is not an adapter state; over it `selectSubmissionIds` gives undefined and
`selectAllSubmissions` and `selectSubmissionById` throw a `TypeError`. -/
theorem transformResponse_absent_is_array :
    (getSubmissions.transformResponse none).1 = .emptyArray ∧
      (getSubmissions.transformResponse none).1 ≠ .normalized initialState ∧
      selectSubmissionIds ⟨some (getSubmissions.transformResponse none).1, false⟩ = none ∧
      selectAllSubmissions ⟨some (getSubmissions.transformResponse none).1, false⟩
        = .error .typeError ∧
      selectSubmissionById ⟨some (getSubmissions.transformResponse none).1, false⟩ (some "a")
        = .error .typeError :=
  ⟨rfl, by decide, rfl, rfl, rfl⟩

/-! ## Server side: properties of the catch-all route -/

/-- C14: for every request that reaches the catch-all handler, the status is 404 and the body is
chosen by what the request accepts: the 404 HTML page if html is accepted, otherwise the JSON
`{message: '404 Not Found'}` if json is accepted, otherwise the plain text '404 Not Found'. -/
theorem catchAll_by_accepted_type (req : Accepts) :
    (catchAll req).status = 404 ∧
      (req.html = true → (catchAll req).body = .htmlPage) ∧
      (req.html = false → req.json = true → (catchAll req).body = .json "404 Not Found") ∧
      (req.html = false → req.json = false → (catchAll req).body = .text "404 Not Found") := by
  rcases req with ⟨html, json⟩
  cases html <;> cases json <;> simp [catchAll]

/-- C14, at a request that accepts json and not html. -/
theorem catchAll_by_accepted_type_witness :
    (catchAll ⟨false, true⟩).status = 404 ∧ (catchAll ⟨false, true⟩).body = .json "404 Not Found" :=
  ⟨(catchAll_by_accepted_type ⟨false, true⟩).1,
    (catchAll_by_accepted_type ⟨false, true⟩).2.2.1 rfl rfl⟩

/-! ## Client side: repeated normalisation of the same records -/

/-- On records none of which is frozen every assignment of `id` goes through. -/
theorem assignIds_of_unfrozen (records : List RecordObject)
    (hfresh : ∀ r ∈ records, r.frozen = false) :
    assignIds records
      = .ok (records.map (fun r => { r with value := setId r.value })) := by
  induction records with
  | nil => rfl
  | cons r rs ih =>
    have hr : r.frozen = false := hfresh r (List.mem_cons_self _ _)
    have hrs : ∀ x ∈ rs, x.frozen = false := fun x hx => hfresh x (List.mem_cons_of_mem _ hx)
    simp [assignIds, assignId, hr, ih hrs]

/-- Freezing changes no property value. -/
theorem freezeStored_values (stored : List EntityId) (records : List RecordObject) :
    (freezeStored stored records).map (fun r => r.value) = records.map (fun r => r.value) := by
  induction records generalizing stored with
  | nil => rfl
  | cons r rs ih =>
    by_cases h : selectId r.value ∈ stored <;> simp [freezeStored, h, ih]

/-- On records none of which is frozen the function returns what it returns on their property
values, and leaves the records with `id` set. -/
theorem transformResponseInPlace_of_unfrozen (records : List RecordObject)
    (hfresh : ∀ r ∈ records, r.frozen = false) :
    ∃ after,
      getSubmissions.transformResponseInPlace (some records)
        = .ok ((getSubmissions.transformResponse (some (records.map (fun r => r.value)))).1,
            some after) ∧
      after.map (fun r => r.value) = records.map (fun r => setId r.value) := by
  refine ⟨freezeStored [] (records.map (fun r => { r with value := setId r.value })), ?_, ?_⟩
  · simp [getSubmissions.transformResponseInPlace, assignIds_of_unfrozen records hfresh,
      getSubmissions.transformResponse, List.map_map, Function.comp_def]
  · simp [freezeStored_values, List.map_map, Function.comp_def]

/-- The first record of a response is stored, and so frozen: on the records a first call has
left, a second call throws. -/
theorem transformResponseInPlace_same_records_throws (first : RecordObject)
    (rest : List RecordObject) (hfresh : ∀ r ∈ first :: rest, r.frozen = false) :
    ∃ result after,
      getSubmissions.transformResponseInPlace (some (first :: rest)) = .ok (result, some after) ∧
      getSubmissions.transformResponseInPlace (some after) = .error .typeError := by
  refine ⟨.normalized (setAll initialState
      (((first :: rest).map (fun r => { r with value := setId r.value })).map
        (fun r => r.value))),
    freezeStored [] ((first :: rest).map (fun r => { r with value := setId r.value })), ?_, ?_⟩
  · simp only [getSubmissions.transformResponseInPlace, assignIds_of_unfrozen _ hfresh]
  · simp [getSubmissions.transformResponseInPlace, freezeStored, assignIds, assignId]

/-- C7, as stated, fails: the response is the one record "a".  The first application returns the
collection of "a" and leaves the record with `id` set and frozen; the second application to the
same response throws a `TypeError` and yields no mapping and no id sequence. -/
theorem transformResponse_second_call_throws :
    getSubmissions.transformResponseInPlace (some [⟨⟨"a", none, []⟩, false⟩])
        = .ok (.normalized ⟨[some "a"], [(some "a", ⟨"a", some "a", []⟩)]⟩,
            some [⟨⟨"a", some "a", []⟩, true⟩]) ∧
      getSubmissions.transformResponseInPlace (some [⟨⟨"a", some "a", []⟩, true⟩])
        = .error .typeError := by
  constructor
  · rfl
  · rfl

/-- C7 (amended): for every raw list response whose records are not frozen, the first application
of `getSubmissions.transformResponse` returns a result, and an application to a copy of the
response whose records are not frozen, be it the response as received or the response with the
`id` values the first application has set, returns the same result: the same entity mapping and
the same ordered id sequence.  For an absent response the result is the empty array each time. -/
theorem transformResponse_on_unfrozen_copy (records : List RecordObject)
    (hfresh : ∀ r ∈ records, r.frozen = false) :
    ∃ result after,
      getSubmissions.transformResponseInPlace (some records) = .ok (result, some after) ∧
      result = (getSubmissions.transformResponse (some (records.map (fun r => r.value)))).1 ∧
      after.map (fun r => r.value) = records.map (fun r => setId r.value) ∧
      (∀ copy : List RecordObject, (∀ r ∈ copy, r.frozen = false) →
        (copy.map (fun r => r.value) = records.map (fun r => r.value) ∨
          copy.map (fun r => r.value) = after.map (fun r => r.value)) →
        ∃ afterCopy,
          getSubmissions.transformResponseInPlace (some copy) = .ok (result, some afterCopy)) ∧
      getSubmissions.transformResponseInPlace none = .ok (.emptyArray, none) := by
  obtain ⟨after, hfirst, hafter⟩ := transformResponseInPlace_of_unfrozen records hfresh
  refine ⟨_, after, hfirst, rfl, hafter, ?_, rfl⟩
  intro copy hcopy hvalues
  obtain ⟨afterCopy, hsecond, _⟩ := transformResponseInPlace_of_unfrozen copy hcopy
  refine ⟨afterCopy, ?_⟩
  rw [hsecond]
  rcases hvalues with hsame | hset
  · rw [hsame]
  · rw [hset, hafter]
    have hagain : (records.map (fun r => setId r.value)).map setId
        = (records.map (fun r => r.value)).map setId := by
      simp [List.map_map, Function.comp_def, setId_setId]
    simp only [getSubmissions.transformResponse, hagain]

/-- C7 (amended), at the response of the two records "a" and "b", neither frozen. -/
theorem transformResponse_on_unfrozen_copy_witness :
    (∀ r ∈ [(⟨⟨"a", none, []⟩, false⟩ : RecordObject), ⟨⟨"b", none, []⟩, false⟩],
        r.frozen = false) ∧
    ∃ result after,
      getSubmissions.transformResponseInPlace
          (some [⟨⟨"a", none, []⟩, false⟩, ⟨⟨"b", none, []⟩, false⟩])
        = .ok (result, some after) ∧
      result = (getSubmissions.transformResponse
          (some (([⟨⟨"a", none, []⟩, false⟩, ⟨⟨"b", none, []⟩, false⟩] :
            List RecordObject).map (fun r => r.value)))).1 ∧
      after.map (fun r => r.value)
        = ([⟨⟨"a", none, []⟩, false⟩, ⟨⟨"b", none, []⟩, false⟩] : List RecordObject).map
            (fun r => setId r.value) ∧
      (∀ copy : List RecordObject, (∀ r ∈ copy, r.frozen = false) →
        (copy.map (fun r => r.value)
            = ([⟨⟨"a", none, []⟩, false⟩, ⟨⟨"b", none, []⟩, false⟩] : List RecordObject).map
                (fun r => r.value) ∨
          copy.map (fun r => r.value) = after.map (fun r => r.value)) →
        ∃ afterCopy,
          getSubmissions.transformResponseInPlace (some copy) = .ok (result, some afterCopy)) ∧
      getSubmissions.transformResponseInPlace none = .ok (.emptyArray, none) :=
  ⟨by decide,
    transformResponse_on_unfrozen_copy
      [⟨⟨"a", none, []⟩, false⟩, ⟨⟨"b", none, []⟩, false⟩] (by decide)⟩

/-! ## Client side: which responses the fetch accepts -/

/-- C12 fails on the code: a response with status 201 and an array payload.  Both
`validateStatus` functions refuse it, but neither `query` hands its endpoint's `validateStatus`
to the base query, whose own test accepts the status: the fetch of the list succeeds and the
payload is cached. -/
theorem fetch_accepts_status_201 :
    getSubmissions.validateStatus 201 (.records [⟨"a", none, []⟩]) = .ok false ∧
      getSubmissionLanguages.validateStatus 201 (.records [⟨"a", none, []⟩]) = .ok false ∧
      baseQueryValidate getSubmissions.query 201 (.records [⟨"a", none, []⟩]) = .ok true ∧
      baseQueryValidate getSubmissionLanguages.query 201 (.records [⟨"a", none, []⟩])
        = .ok true ∧
      getSubmissions.fetched (baseQueryValidate getSubmissions.query) 201
          (.records [⟨"a", none, []⟩]) uninitialized
        = ⟨some (.normalized ⟨[some "a"], [(some "a", ⟨"a", some "a", []⟩)]⟩), false⟩ := by
  refine ⟨rfl, rfl, rfl, rfl, ?_⟩
  decide

end AutomaticGradingSystem
